import Mathlib

/-!
Shallow embedding of the mosaic pipeline core (color model, easing library,
mosaic synthesis skeleton, zoom-frame renderer) from the TypeScript sources
`src/utils/color.ts`, `src/utils/easing.ts`, `src/utils/mosaic.ts` and
`src/utils/gif.ts`, together with theorems settling the specification claims.

Modelling conventions:
* JavaScript numbers are modelled as rationals.  A division whose divisor is
  zero yields a non-finite JavaScript number (NaN or an infinity); we model
  such a result as `none` of an `Option`, and non-finiteness propagates
  through subsequent arithmetic exactly as NaN does (`Option.map` / `bind`).
* `Math.round x` is `⌊x + 1/2⌋` (JavaScript rounds half toward positive
  infinity), `Math.floor` is `⌊·⌋`, `Math.min`/`Math.max` are `min`/`max`.
* Canvas pixel reads are external effects; the data read back from a canvas
  is therefore an explicit input of the model (an oracle), never computed.
-/

namespace Mosaic

/-- JavaScript `Math.round`: rounds half toward positive infinity. -/
def jsRound (q : ℚ) : ℤ := ⌊q + 1 / 2⌋

/-- JavaScript division on numbers: `none` models the non-finite result
(NaN or an infinity) produced when the divisor is zero. -/
def jsDiv (a b : ℚ) : Option ℚ := if b = 0 then none else some (a / b)

/-- The `RGB` interface of `color.ts`: three numeric channels. -/
structure RGB where
  r : ℚ
  g : ℚ
  b : ℚ
deriving Repr, DecidableEq

/-- Channel sums of a flat RGBA sample list, as accumulated by the
`for (let i = 0; i < data.length; i += 4)` loop of `getAverageColor`:
positions `i`, `i+1`, `i+2` are added to the r, g, b sums and the alpha
sample at `i+3` is skipped. -/
def sumChannels : List ℚ → ℚ × ℚ × ℚ
  | r :: g :: b :: _ :: rest =>
      let s := sumChannels rest
      (r + s.1, g + s.2.1, b + s.2.2)
  | _ => (0, 0, 0)

/-- `getAverageColor` of `color.ts`: `pixels = data.length / 4`, each channel
sum is divided by `pixels` and rounded.  On an empty buffer `pixels = 0` and
each component is the non-finite `0 / 0` (NaN) — modelled as `none`. -/
def getAverageColor (data : List ℚ) : Option RGB :=
  let pixels : ℚ := (data.length : ℚ) / 4
  let s := sumChannels data
  if pixels = 0 then none
  else some ⟨(jsRound (s.1 / pixels) : ℚ), (jsRound (s.2.1 / pixels) : ℚ),
             (jsRound (s.2.2 / pixels) : ℚ)⟩

/-- The radicand of `colorDistance` of `color.ts`: `dr*dr + dg*dg + db*db`.
The source takes `Math.sqrt` of this value; `Math.sqrt` is strictly
increasing on nonnegative numbers, so every comparison of distances in the
source is equivalent to the same comparison of these squared distances. -/
def colorDistanceSq (c1 c2 : RGB) : ℚ :=
  let dr := c1.r - c2.r
  let dg := c1.g - c2.g
  let db := c1.b - c2.b
  dr * dr + dg * dg + db * db

/-- The scanning loop of `findClosestColor`: `minDistance` starts at
`Infinity` (modelled as `none`, which every finite distance beats) and
`closestIndex` starts at 0; an entry strictly closer than the running
minimum becomes the new minimum.  Comparisons of `Math.sqrt` values are
replaced by the equivalent comparisons of the radicands. -/
def findClosestColorAux (target : RGB) : List RGB → ℕ → Option ℚ → ℕ → ℕ
  | [], _, _, best => best
  | c :: rest, i, none, _ =>
      findClosestColorAux target rest (i + 1) (some (colorDistanceSq target c)) i
  | c :: rest, i, some m, best =>
      if colorDistanceSq target c < m then
        findClosestColorAux target rest (i + 1) (some (colorDistanceSq target c)) i
      else
        findClosestColorAux target rest (i + 1) (some m) best

/-- `findClosestColor` of `color.ts`. -/
def findClosestColor (target : RGB) (palette : List RGB) : ℕ :=
  findClosestColorAux target palette 0 none 0

/-- `linear` of `easing.ts`. -/
def linear (t : ℚ) : ℚ := t

/-- `easeOutCubic` of `easing.ts`: `1 - Math.pow(1 - t, 3)`. -/
def easeOutCubic (t : ℚ) : ℚ := 1 - (1 - t) ^ 3

/-- `easeInCubic` of `easing.ts`: `t * t * t`. -/
def easeInCubic (t : ℚ) : ℚ := t * t * t

/-- `easeInOutCubic` of `easing.ts`:
`t < 0.5 ? 4 * t * t * t : 1 - Math.pow(-2 * t + 2, 3) / 2`. -/
def easeInOutCubic (t : ℚ) : ℚ :=
  if t < 1 / 2 then 4 * t * t * t else 1 - (-2 * t + 2) ^ 3 / 2

/-- The `GifConfig` interface of `gif.ts`; the nested `focusPoint` object is
flattened into the two fields `focusX`, `focusY` (normalized coordinates). -/
structure GifConfig where
  width : ℚ
  height : ℚ
  duration : ℚ
  fps : ℚ
  startZoom : ℚ
  easing : ℚ → ℚ
  focusX : ℚ
  focusY : ℚ

/-- One rendered frame of `renderZoomFrames`, recorded as the source crop
rectangle passed to `drawImage` (the canvas blit itself is an external
effect).  A `none` component is a non-finite number (NaN propagation). -/
structure Frame where
  cropX : Option ℚ
  cropY : Option ℚ
  cropWidth : Option ℚ
  cropHeight : Option ℚ
deriving Repr, DecidableEq

/-- The per-frame time parameter of `renderZoomFrames`:
`const t = i / (frameCount - 1)` — with no special case, so for
`frameCount = 1` the division is `0 / 0` and `t` is NaN (`none`). -/
def frameT (frameCount : ℕ) (i : ℕ) : Option ℚ :=
  jsDiv (i : ℚ) ((frameCount : ℚ) - 1)

/-- The clamp applied to each crop-origin axis in `renderZoomFrames`:
`Math.max(0, Math.min(focusPixels - cropSize / 2, mosaicDim - cropSize))`. -/
def clampCrop (focusPixels mosaicDim cropSize : ℚ) : ℚ :=
  max 0 (min (focusPixels - cropSize / 2) (mosaicDim - cropSize))

/-- The body of the frame loop of `renderZoomFrames`: easing, zoom
interpolation, crop-rectangle computation and clamping for frame `i`. -/
def zoomFrame (mosaicW mosaicH : ℚ) (cfg : GifConfig) (frameCount : ℕ) (i : ℕ) :
    Frame :=
  let easedT := (frameT frameCount i).map cfg.easing
  let currentZoom := easedT.map fun e => cfg.startZoom + (1 - cfg.startZoom) * e
  let cropWidth := currentZoom.bind fun z => jsDiv cfg.width z
  let cropHeight := currentZoom.bind fun z => jsDiv cfg.height z
  let focusX := cfg.focusX * mosaicW
  let focusY := cfg.focusY * mosaicH
  { cropX := cropWidth.map fun cw => clampCrop focusX mosaicW cw
    cropY := cropHeight.map fun ch => clampCrop focusY mosaicH ch
    cropWidth := cropWidth
    cropHeight := cropHeight }

/-- `renderZoomFrames` of `gif.ts`: `frameCount = Math.round(duration * fps)`
frames are produced by the loop `for (let i = 0; i < frameCount; i++)`
(zero iterations when the rounded value is not positive), and
`frameDelay = Math.round(1000 / fps)`. -/
def renderZoomFrames (mosaicW mosaicH : ℚ) (cfg : GifConfig) :
    List Frame × Option ℤ :=
  let frameCount := (jsRound (cfg.duration * cfg.fps)).toNat
  let frameDelay := (jsDiv 1000 cfg.fps).map jsRound
  ((List.range frameCount).map (zoomFrame mosaicW mosaicH cfg frameCount),
   frameDelay)

/-- The `MosaicConfig` interface of `mosaic.ts`. -/
structure MosaicConfig where
  outputWidth : ℚ
  tileSize : ℚ
  tintOpacity : ℚ

/-- The `TileData` record of `mosaic.ts`, restricted to the field the mosaic
algorithm reads (`averageColor`); the tile canvas and original file handle
are opaque to the grid computation. -/
structure TileData where
  averageColor : RGB
deriving Repr, DecidableEq

/-- The `MosaicResult` of `generateMosaic`: grid dimensions, actual pixel
dimensions, and for each grid cell (row-major) the index of the tile chosen
by `findClosestColor` (the `drawImage` blit of that tile is an external
effect). -/
structure MosaicResult where
  gridWidth : ℤ
  gridHeight : ℤ
  actualWidth : ℚ
  actualHeight : ℚ
  assignments : List ℕ
deriving Repr, DecidableEq

/-- `generateMosaic` of `mosaic.ts`.  `goalW`, `goalH` are the goal-image
dimensions and `regionColor x y` is the average color that
`getRegionAverageColor` reads from the scaled goal canvas at pixel offset
`(x, y)` — a canvas read, hence an oracle input.  The whole result is `none`
only when a division by zero makes the arithmetic non-finite (zero goal
width or zero tile size); the function performs no validation and never
raises a config error.  Integer `%` and `/` here agree with the JavaScript
operators because `cellIndex` is nonnegative and they are only reached with
a positive `gridWidth` (otherwise `totalCells = gridWidth * gridHeight ≤ 0`
and the loop body never runs). -/
def generateMosaic (goalW goalH : ℚ) (tiles : List TileData)
    (config : MosaicConfig) (regionColor : ℚ → ℚ → RGB) : Option MosaicResult :=
  match jsDiv goalH goalW with
  | none => none
  | some aspectRatio =>
    let outputHeight : ℤ := jsRound (config.outputWidth * aspectRatio)
    match jsDiv config.outputWidth config.tileSize,
          jsDiv (outputHeight : ℚ) config.tileSize with
    | some qw, some qh =>
      let gridWidth : ℤ := ⌊qw⌋
      let gridHeight : ℤ := ⌊qh⌋
      let actualWidth : ℚ := (gridWidth : ℚ) * config.tileSize
      let actualHeight : ℚ := (gridHeight : ℚ) * config.tileSize
      let tileColors := tiles.map fun t => t.averageColor
      let totalCells := (gridWidth * gridHeight).toNat
      let assignments := (List.range totalCells).map fun (cellIndex : ℕ) =>
        let gridX : ℤ := (cellIndex : ℤ) % gridWidth
        let gridY : ℤ := (cellIndex : ℤ) / gridWidth
        let x := (gridX : ℚ) * config.tileSize
        let y := (gridY : ℚ) * config.tileSize
        findClosestColor (regionColor x y) tileColors
      some { gridWidth := gridWidth, gridHeight := gridHeight,
             actualWidth := actualWidth, actualHeight := actualHeight,
             assignments := assignments }
    | _, _ => none

/-- An input to `preprocessTiles`: the decoded image dimensions, plus the
RGBA samples that `ctx.getImageData(0, 0, tileSize, tileSize)` reads back
from the tile canvas after the center-crop draw.  The canvas is an external
effect, so the read-back data is an input of the model. -/
structure SourceImage where
  width : ℚ
  height : ℚ
  sample : List ℚ
deriving Repr, DecidableEq

/-- The tile produced for one input image by `preprocessTiles`: the
center-crop parameters `size = min(w, h)`, `sx = (w - size) / 2`,
`sy = (h - size) / 2` and the average color computed from the tile-canvas
read-back. -/
structure PreprocTile where
  sx : ℚ
  sy : ℚ
  size : ℚ
  averageColor : Option RGB
deriving Repr, DecidableEq

/-- `preprocessTiles` of `mosaic.ts`: one tile per input image, in input
order.  No dimension validation is performed; a zero-dimension image simply
yields an empty crop rectangle (drawing an empty source rectangle is a
no-op on the canvas), never an error. -/
def preprocessTiles (images : List SourceImage) : List PreprocTile :=
  images.map fun img =>
    let size := min img.width img.height
    let sx := (img.width - size) / 2
    let sy := (img.height - size) / 2
    { sx := sx, sy := sy, size := size,
      averageColor := getAverageColor img.sample }

/-- Flatten a list of RGBA pixels into the flat sample list layout of
`ImageData.data` (four consecutive samples per pixel). -/
def pixelsData : List (ℚ × ℚ × ℚ × ℚ) → List ℚ
  | [] => []
  | (r, g, b, a) :: rest => r :: g :: b :: a :: pixelsData rest

example : getAverageColor [10, 20, 30, 255, 20, 30, 40, 255] = some ⟨15, 25, 35⟩ := by
  norm_num [getAverageColor, sumChannels, jsRound]

example : getAverageColor [] = none := by
  norm_num [getAverageColor]

example : findClosestColor ⟨3, 4, 0⟩ [⟨0, 0, 0⟩, ⟨3, 4, 1⟩, ⟨3, 4, 1⟩] = 1 := by
  norm_num [findClosestColor, findClosestColorAux, colorDistanceSq]

example : easeInOutCubic (1 / 2) = 1 / 2 := by norm_num [easeInOutCubic]

/-- C7: each of the four easing functions `linear`, `easeOutCubic`,
`easeInCubic`, `easeInOutCubic` satisfies `f 0 = 0` and `f 1 = 1` exactly. -/
theorem easing_boundary :
    linear 0 = 0 ∧ linear 1 = 1 ∧
    easeOutCubic 0 = 0 ∧ easeOutCubic 1 = 1 ∧
    easeInCubic 0 = 0 ∧ easeInCubic 1 = 1 ∧
    easeInOutCubic 0 = 0 ∧ easeInOutCubic 1 = 1 := by
  norm_num [linear, easeOutCubic, easeInCubic, easeInOutCubic]

/-- C2 is false on the code: on an empty pixel buffer `getAverageColor`
returns a value — an RGB whose components are all NaN (`none` here), the
result of rounding `0 / 0` — and on an empty palette `findClosestColor`
returns the initial index 0; neither operation raises an InvalidInput
error (no such error exists in the sources). -/
theorem empty_input_counterexample :
    getAverageColor ([] : List ℚ) = none ∧
    findClosestColor ⟨0, 0, 0⟩ [] = 0 :=
  ⟨by norm_num [getAverageColor], rfl⟩

/-- C2 amended: empty inputs are not rejected: `getAverageColor` of an empty
buffer returns the NaN-component color (modelled `none`) and
`findClosestColor` of an empty palette returns index 0 for every target;
no error is raised or propagated. -/
theorem empty_input_returns_value (target : RGB) :
    getAverageColor ([] : List ℚ) = none ∧
    findClosestColor target [] = 0 :=
  ⟨by norm_num [getAverageColor], rfl⟩

/-- C1 is false on the code: with `duration = 1`, `fps = 1` the renderer
computes `frameCount = 1`, and for the single frame `i = 0` the time
parameter is the unguarded `0 / (1 - 1) = 0 / 0` — the division by zero the
claim says is special-cased away — so `t` is NaN (`none`) rather than 0,
and every component of the rendered frame is NaN. -/
theorem frameT_single_frame_counterexample :
    (jsRound ((1 : ℚ) * 1)).toNat = 1 ∧
    frameT 1 0 = none ∧
    (renderZoomFrames 1200 600 ⟨600, 300, 1, 1, 12, linear, 1/2, 1/2⟩).1 =
      [⟨none, none, none, none⟩] := by
  refine ⟨by norm_num [jsRound], by norm_num [frameT, jsDiv], ?_⟩
  norm_num [renderZoomFrames, zoomFrame, frameT, jsDiv, jsRound, List.range_succ]

/-- C1 amended: the time parameter is the unguarded
`t = i / (frameCount - 1)`; for `frameCount ≥ 2` the first frame has
`t = 0` and the last `t = 1`, while for `frameCount = 1` the division
`0 / 0` occurs and `t` is NaN (`none`). -/
theorem frameT_formula (frameCount i : ℕ) (h : 2 ≤ frameCount) :
    frameT frameCount i = some ((i : ℚ) / ((frameCount : ℚ) - 1)) ∧
    frameT frameCount 0 = some 0 ∧
    frameT frameCount (frameCount - 1) = some 1 ∧
    frameT 1 0 = none := by
  have h2 : (2 : ℚ) ≤ (frameCount : ℚ) := by exact_mod_cast h
  have hne : ((frameCount : ℚ) - 1) ≠ 0 := by linarith
  have hcast : ((frameCount - 1 : ℕ) : ℚ) = (frameCount : ℚ) - 1 := by
    have h1 : 1 ≤ frameCount := le_trans (by norm_num) h
    push_cast [h1]
    ring
  refine ⟨?_, ?_, ?_, by norm_num [frameT, jsDiv]⟩
  · simp [frameT, jsDiv, hne]
  · simp [frameT, jsDiv, hne]
  · simp [frameT, jsDiv, hne, hcast, div_self hne]

/-- Witness for `frameT_formula` at `frameCount = 5`, `i = 2`. -/
theorem frameT_formula_witness :
    2 ≤ 5 ∧ frameT 5 2 = some ((2 : ℚ) / ((5 : ℚ) - 1)) :=
  ⟨by norm_num, (frameT_formula 5 2 (by norm_num)).1⟩

/-- C8: the renderer returns a finite ordered list of exactly
`Math.round(duration * fps)` frames: in general the length is the rounded
value clamped to ℕ (the loop runs zero times for a nonpositive count),
whenever the rounded value is nonnegative the length equals it exactly,
and the configurations `duration = 4, fps = 20` and `duration = 2,
fps = 10` yield exactly 80 and 20 frames. -/
theorem renderZoomFrames_frame_count :
    (∀ (w h : ℚ) (cfg : GifConfig),
      (renderZoomFrames w h cfg).1.length =
        (jsRound (cfg.duration * cfg.fps)).toNat) ∧
    (∀ (w h : ℚ) (cfg : GifConfig), 0 ≤ jsRound (cfg.duration * cfg.fps) →
      ((renderZoomFrames w h cfg).1.length : ℤ) =
        jsRound (cfg.duration * cfg.fps)) ∧
    (renderZoomFrames 1200 600 ⟨600, 300, 4, 20, 12, linear, 1/2, 1/2⟩).1.length
      = 80 ∧
    (renderZoomFrames 1200 600 ⟨600, 300, 2, 10, 12, linear, 1/2, 1/2⟩).1.length
      = 20 := by
  have hlen : ∀ (w h : ℚ) (cfg : GifConfig),
      (renderZoomFrames w h cfg).1.length =
        (jsRound (cfg.duration * cfg.fps)).toNat := by
    intro w h cfg
    simp [renderZoomFrames]
  refine ⟨hlen, fun w h cfg h0 => ?_, ?_, ?_⟩
  · rw [hlen]
    exact Int.toNat_of_nonneg h0
  · rw [hlen]
    norm_num [jsRound]
    rfl
  · rw [hlen]
    norm_num [jsRound]
    rfl

/-- Witness for `renderZoomFrames_frame_count` at the concrete
`duration = 4, fps = 20` configuration. -/
theorem renderZoomFrames_frame_count_witness :
    0 ≤ jsRound ((4 : ℚ) * 20) ∧
    ((renderZoomFrames 1200 600
        ⟨600, 300, 4, 20, 12, linear, 1/2, 1/2⟩).1.length : ℤ) =
      jsRound ((4 : ℚ) * 20) :=
  ⟨by norm_num [jsRound],
   renderZoomFrames_frame_count.2.1 1200 600 _ (by norm_num [jsRound])⟩

/-- C5: the crop origin of every frame is, per axis, the clamped
`focus - cropSize / 2` using exactly `max 0 (min · (mosaicDim - cropSize))`;
the clamp is never negative; with `focusPoint = (0, 0)` the origin is 0 for
every nonnegative crop size; and with `focusPoint = (1, 1)` and
`cropWidth < mosaicWidth` the origin is exactly `mosaicWidth - cropWidth`. -/
theorem crop_clamp_spec :
    (∀ (mosaicW mosaicH : ℚ) (cfg : GifConfig) (frameCount i : ℕ),
      (zoomFrame mosaicW mosaicH cfg frameCount i).cropX =
        ((zoomFrame mosaicW mosaicH cfg frameCount i).cropWidth).map
          (clampCrop (cfg.focusX * mosaicW) mosaicW) ∧
      (zoomFrame mosaicW mosaicH cfg frameCount i).cropY =
        ((zoomFrame mosaicW mosaicH cfg frameCount i).cropHeight).map
          (clampCrop (cfg.focusY * mosaicH) mosaicH)) ∧
    (∀ f W cw : ℚ, 0 ≤ clampCrop f W cw) ∧
    (∀ W cw : ℚ, 0 ≤ cw → clampCrop (0 * W) W cw = 0) ∧
    (∀ W cw : ℚ, 0 ≤ cw → cw < W → clampCrop (1 * W) W cw = W - cw) := by
  refine ⟨fun mosaicW mosaicH cfg frameCount i => ⟨rfl, rfl⟩,
    fun f W cw => le_max_left 0 _, fun W cw h => ?_, fun W cw h0 hlt => ?_⟩
  · unfold clampCrop
    apply max_eq_left
    calc min (0 * W - cw / 2) (W - cw) ≤ 0 * W - cw / 2 := min_le_left _ _
      _ ≤ 0 := by linarith
  · unfold clampCrop
    rw [min_eq_right (by linarith), max_eq_right (by linarith)]

/-- Witness for `crop_clamp_spec` at `mosaicWidth = 1200`,
`cropWidth = 300`. -/
theorem crop_clamp_spec_witness :
    ((0 : ℚ) ≤ 300) ∧ clampCrop (0 * 1200) 1200 300 = 0 ∧
    ((300 : ℚ) < 1200) ∧ clampCrop (1 * 1200) 1200 300 = 1200 - 300 :=
  ⟨by norm_num, crop_clamp_spec.2.2.1 1200 300 (by norm_num), by norm_num,
   crop_clamp_spec.2.2.2 1200 300 (by norm_num) (by norm_num)⟩

lemma length_pixelsData (l : List (ℚ × ℚ × ℚ × ℚ)) :
    (pixelsData l).length = 4 * l.length := by
  induction l with
  | nil => simp [pixelsData]
  | cons p rest ih =>
    obtain ⟨r, g, b, a⟩ := p
    simp [pixelsData, ih]
    ring

lemma sumChannels_pixelsData (l : List (ℚ × ℚ × ℚ × ℚ)) :
    sumChannels (pixelsData l) =
      ((l.map fun p => p.1).sum, (l.map fun p => p.2.1).sum,
       (l.map fun p => p.2.2.1).sum) := by
  induction l with
  | nil => simp [pixelsData, sumChannels]
  | cons p rest ih =>
    obtain ⟨r, g, b, a⟩ := p
    simp [pixelsData, sumChannels, ih]

lemma jsRound_intCast (z : ℤ) : jsRound (z : ℚ) = z := by
  unfold jsRound
  rw [add_comm, Int.floor_add_int]
  norm_num

/-- C9: on a non-empty buffer `getAverageColor` is the arithmetic mean of
the r, g, b samples computed independently, each component rounded to the
nearest integer; in particular a buffer of `n` identical integer pixels
`(r, g, b)` averages to exactly `(r, g, b)`. -/
theorem getAverageColor_mean :
    (∀ l : List (ℚ × ℚ × ℚ × ℚ), l ≠ [] →
      getAverageColor (pixelsData l) =
        some ⟨(jsRound ((l.map fun p => p.1).sum / (l.length : ℚ)) : ℚ),
              (jsRound ((l.map fun p => p.2.1).sum / (l.length : ℚ)) : ℚ),
              (jsRound ((l.map fun p => p.2.2.1).sum / (l.length : ℚ)) : ℚ)⟩) ∧
    (∀ (n : ℕ) (r g b : ℤ) (a : ℚ), 0 < n →
      getAverageColor (pixelsData (List.replicate n ((r : ℚ), (g : ℚ), (b : ℚ), a))) =
        some ⟨(r : ℚ), (g : ℚ), (b : ℚ)⟩) := by
  have main : ∀ l : List (ℚ × ℚ × ℚ × ℚ), l ≠ [] →
      getAverageColor (pixelsData l) =
        some ⟨(jsRound ((l.map fun p => p.1).sum / (l.length : ℚ)) : ℚ),
              (jsRound ((l.map fun p => p.2.1).sum / (l.length : ℚ)) : ℚ),
              (jsRound ((l.map fun p => p.2.2.1).sum / (l.length : ℚ)) : ℚ)⟩ := by
    intro l hl
    have hlen0 : l.length ≠ 0 := by simpa [List.length_eq_zero] using hl
    have hne : ((l.length : ℚ)) ≠ 0 := by exact_mod_cast hlen0
    have hq : (((pixelsData l).length : ℚ)) / 4 = (l.length : ℚ) := by
      rw [length_pixelsData]
      push_cast
      ring
    simp only [getAverageColor, hq, sumChannels_pixelsData, if_neg hne]
  refine ⟨main, fun n r g b a hn => ?_⟩
  have hne : ((n : ℚ)) ≠ 0 := by
    exact_mod_cast Nat.pos_iff_ne_zero.mp hn
  have hl : (List.replicate n ((r : ℚ), (g : ℚ), (b : ℚ), a)) ≠ [] := by
    simpa [← List.length_eq_zero, Nat.pos_iff_ne_zero] using Nat.pos_iff_ne_zero.mp hn
  rw [main _ hl]
  simp only [List.map_replicate, List.sum_replicate, List.length_replicate,
    nsmul_eq_mul, mul_div_assoc, mul_div_cancel_left₀ _ hne]
  simp [jsRound_intCast]

/-- Witness for `getAverageColor_mean` on three identical `(7, 8, 9)`
pixels. -/
theorem getAverageColor_mean_witness :
    0 < 3 ∧
    getAverageColor
        (pixelsData (List.replicate 3 (((7 : ℤ) : ℚ), ((8 : ℤ) : ℚ), ((9 : ℤ) : ℚ), 255))) =
      some ⟨((7 : ℤ) : ℚ), ((8 : ℤ) : ℚ), ((9 : ℤ) : ℚ)⟩ :=
  ⟨by norm_num, getAverageColor_mean.2 3 7 8 9 255 (by norm_num)⟩

/-- C3 is false on the code: with a 100×100 goal image and
`outputWidth = 100`, `tileSize = 200` (tile larger than the output) the
computed grid is 0×0, yet `generateMosaic` does not fail with any
InvalidConfig error — no such check exists in the sources — and instead
returns a degenerate result with `gridWidth = gridHeight = 0`, zero actual
dimensions and an empty cell list. -/
theorem generateMosaic_zero_grid_counterexample :
    generateMosaic 100 100 [⟨⟨0, 0, 0⟩⟩] ⟨100, 200, 0⟩ (fun _ _ => ⟨0, 0, 0⟩) =
      some ⟨0, 0, 0, 0, []⟩ := by
  norm_num [generateMosaic, jsDiv, jsRound]

/-- C3 amended: `generateMosaic` performs no grid validation: for any goal
image of nonzero width and any nonzero tile size it returns a result whose
`gridWidth` and `gridHeight` are the floor-divided values — even when they
are smaller than 1 — with one cell assignment per grid cell. -/
theorem generateMosaic_no_validation (goalW goalH : ℚ) (tiles : List TileData)
    (config : MosaicConfig) (regionColor : ℚ → ℚ → RGB)
    (hW : goalW ≠ 0) (hT : config.tileSize ≠ 0) :
    ∃ res : MosaicResult,
      generateMosaic goalW goalH tiles config regionColor = some res ∧
      res.gridWidth = ⌊config.outputWidth / config.tileSize⌋ ∧
      res.gridHeight =
        ⌊((jsRound (config.outputWidth * (goalH / goalW)) : ℤ) : ℚ) / config.tileSize⌋ ∧
      res.assignments.length = (res.gridWidth * res.gridHeight).toNat := by
  simp only [generateMosaic, jsDiv, if_neg hW, if_neg hT]
  exact ⟨_, rfl, rfl, rfl, by rw [List.length_map, List.length_range]⟩

/-- Witness for `generateMosaic_no_validation` at a 100×100 goal image with
`outputWidth = 100`, `tileSize = 200`. -/
theorem generateMosaic_no_validation_witness :
    ((100 : ℚ) ≠ 0) ∧ ((200 : ℚ) ≠ 0) ∧
    ∃ res : MosaicResult,
      generateMosaic 100 100 [⟨⟨1, 2, 3⟩⟩] ⟨100, 200, 0⟩ (fun _ _ => ⟨0, 0, 0⟩) =
        some res ∧
      res.gridWidth = ⌊(100 : ℚ) / 200⌋ ∧
      res.gridHeight = ⌊((jsRound ((100 : ℚ) * (100 / 100)) : ℤ) : ℚ) / 200⌋ ∧
      res.assignments.length = (res.gridWidth * res.gridHeight).toNat :=
  ⟨by norm_num, by norm_num,
   generateMosaic_no_validation 100 100 [⟨⟨1, 2, 3⟩⟩] ⟨100, 200, 0⟩
     (fun _ _ => ⟨0, 0, 0⟩) (by norm_num) (by norm_num)⟩

/-- C4 is false on the code: a batch containing a 0×0 image is not failed
with any ImageProcessingError — no such check exists in the sources —
instead `preprocessTiles` returns a full one-tile sequence for it, with an
empty crop rectangle and the average color of the (blank) tile canvas. -/
theorem preprocessTiles_zero_dim_counterexample :
    preprocessTiles [⟨0, 0, [0, 0, 0, 0]⟩] = [⟨0, 0, 0, some ⟨0, 0, 0⟩⟩] ∧
    (preprocessTiles [⟨0, 0, [0, 0, 0, 0]⟩]).length = 1 := by
  constructor
  · norm_num [preprocessTiles, getAverageColor, sumChannels, jsRound]
    simp
  · simp [preprocessTiles]

/-- C4 amended: preprocessing never rejects an image: it returns exactly one
tile per input image in input order (output length equals input length), and
appending any image — zero-dimension or not — appends exactly its own tile,
leaving the other tiles unchanged; no error interrupts the batch. -/
theorem preprocessTiles_total (images : List SourceImage) (img : SourceImage) :
    (preprocessTiles images).length = images.length ∧
    preprocessTiles (images ++ [img]) =
      preprocessTiles images ++
        [⟨(img.width - min img.width img.height) / 2,
          (img.height - min img.width img.height) / 2,
          min img.width img.height,
          getAverageColor img.sample⟩] := by
  constructor
  · simp [preprocessTiles]
  · simp [preprocessTiles]

lemma colorDistanceSq_nonneg (c1 c2 : RGB) : 0 ≤ colorDistanceSq c1 c2 := by
  simp only [colorDistanceSq]
  nlinarith [sq_nonneg (c1.r - c2.r), sq_nonneg (c1.g - c2.g),
    sq_nonneg (c1.b - c2.b)]

/-- Loop invariant of the `findClosestColor` scan: starting from a finite
running minimum `m` held at index `best`, either no entry of the remaining
list strictly beats `m` and `best` is returned, or the first entry of the
remaining list achieving the overall minimum is returned. -/
lemma findClosestColorAux_invariant (target : RGB) :
    ∀ (l : List RGB) (i : ℕ) (m : ℚ) (best : ℕ),
      (findClosestColorAux target l i (some m) best = best ∧
        ∀ k, k < l.length → m ≤ colorDistanceSq target (l.getD k ⟨0, 0, 0⟩)) ∨
      (∃ k, k < l.length ∧
        findClosestColorAux target l i (some m) best = i + k ∧
        colorDistanceSq target (l.getD k ⟨0, 0, 0⟩) < m ∧
        (∀ k2, k2 < l.length →
          colorDistanceSq target (l.getD k ⟨0, 0, 0⟩) ≤
            colorDistanceSq target (l.getD k2 ⟨0, 0, 0⟩)) ∧
        (∀ k2, k2 < k →
          colorDistanceSq target (l.getD k ⟨0, 0, 0⟩) <
            colorDistanceSq target (l.getD k2 ⟨0, 0, 0⟩))) := by
  intro l
  induction l with
  | nil =>
    intro i m best
    left
    exact ⟨rfl, fun k hk => absurd hk (by simp)⟩
  | cons c rest ih =>
    intro i m best
    by_cases hd : colorDistanceSq target c < m
    · have heq : findClosestColorAux target (c :: rest) i (some m) best =
          findClosestColorAux target rest (i + 1)
            (some (colorDistanceSq target c)) i := by
        simp [findClosestColorAux, hd]
      rcases ih (i + 1) (colorDistanceSq target c) i with
        ⟨h1, h2⟩ | ⟨k', hk', h1, h2, h3, h4⟩
      · right
        refine ⟨0, by simp, ?_, ?_, ?_, ?_⟩
        · rw [heq, h1]
          omega
        · simpa using hd
        · intro k2 hk2
          cases k2 with
          | zero => simp
          | succ k2' =>
            have hk2' : k2' < rest.length := by
              simpa using hk2
            simpa using h2 k2' hk2'
        · intro k2 hk2
          exact absurd hk2 (Nat.not_lt_zero k2)
      · right
        refine ⟨k' + 1, by simpa using hk', ?_, ?_, ?_, ?_⟩
        · rw [heq, h1]
          omega
        · have := lt_trans h2 hd
          simpa using this
        · intro k2 hk2
          cases k2 with
          | zero => simpa using le_of_lt h2
          | succ k2' =>
            have hk2' : k2' < rest.length := by
              simpa using hk2
            simpa using h3 k2' hk2'
        · intro k2 hk2
          cases k2 with
          | zero => simpa using h2
          | succ k2' =>
            have hk2' : k2' < k' := by omega
            simpa using h4 k2' hk2'
    · have heq : findClosestColorAux target (c :: rest) i (some m) best =
          findClosestColorAux target rest (i + 1) (some m) best := by
        simp [findClosestColorAux, hd]
      have hm : m ≤ colorDistanceSq target c := not_lt.mp hd
      rcases ih (i + 1) m best with ⟨h1, h2⟩ | ⟨k', hk', h1, h2, h3, h4⟩
      · left
        refine ⟨heq.trans h1, ?_⟩
        intro k hk
        cases k with
        | zero => simpa using hm
        | succ k' =>
          have hk' : k' < rest.length := by
            simpa using hk
          simpa using h2 k' hk'
      · right
        refine ⟨k' + 1, by simpa using hk', ?_, ?_, ?_, ?_⟩
        · rw [heq, h1]
          omega
        · simpa using h2
        · intro k2 hk2
          cases k2 with
          | zero => simpa using le_of_lt (lt_of_lt_of_le h2 hm)
          | succ k2' =>
            have hk2' : k2' < rest.length := by
              simpa using hk2
            simpa using h3 k2' hk2'
        · intro k2 hk2
          cases k2 with
          | zero => simpa using lt_of_lt_of_le h2 hm
          | succ k2' =>
            have hk2' : k2' < k' := by omega
            simpa using h4 k2' hk2'

/-- Minimality of `findClosestColor` stated on the squared distances: the
returned index is in range, achieves the minimum squared distance, and is
strictly better than every earlier index. -/
lemma findClosestColor_min_sq (target : RGB) (palette : List RGB)
    (h : palette ≠ []) :
    findClosestColor target palette < palette.length ∧
    (∀ k, k < palette.length →
      colorDistanceSq target
          (palette.getD (findClosestColor target palette) ⟨0, 0, 0⟩) ≤
        colorDistanceSq target (palette.getD k ⟨0, 0, 0⟩)) ∧
    (∀ k, k < findClosestColor target palette →
      colorDistanceSq target
          (palette.getD (findClosestColor target palette) ⟨0, 0, 0⟩) <
        colorDistanceSq target (palette.getD k ⟨0, 0, 0⟩)) := by
  obtain ⟨c, rest, rfl⟩ := List.exists_cons_of_ne_nil h
  have hstart : findClosestColor target (c :: rest) =
      findClosestColorAux target rest 1 (some (colorDistanceSq target c)) 0 := rfl
  rcases findClosestColorAux_invariant target rest 1 (colorDistanceSq target c) 0
    with ⟨h1, h2⟩ | ⟨k', hk', h1, h2, h3, h4⟩
  · have hj : findClosestColor target (c :: rest) = 0 := hstart.trans h1
    rw [hj]
    refine ⟨by simp, ?_, ?_⟩
    · intro k hk
      cases k with
      | zero => simp
      | succ k2' =>
        have hk2' : k2' < rest.length := by
          simpa using hk
        simpa using h2 k2' hk2'
    · intro k hk
      exact absurd hk (Nat.not_lt_zero k)
  · have hj : findClosestColor target (c :: rest) = k' + 1 := by
      rw [hstart, h1]
      omega
    rw [hj]
    refine ⟨by simpa using hk', ?_, ?_⟩
    · intro k hk
      cases k with
      | zero => simpa using le_of_lt h2
      | succ k2' =>
        have hk2' : k2' < rest.length := by
          simpa using hk
        simpa using h3 k2' hk2'
    · intro k hk
      cases k with
      | zero => simpa using h2
      | succ k2' =>
        have hk2' : k2' < k' := by omega
        simpa using h4 k2' hk2'

/-- C6: for every target and non-empty palette, `findClosestColor` returns
the lowest index minimizing the Euclidean distance
`Math.sqrt(dr*dr + dg*dg + db*db)` to the target: the index is in range,
its entry has minimal distance, every earlier index has strictly larger
distance, and on the palette `[C, C]` with target `C` the result is 0. -/
theorem findClosestColor_nearest (target : RGB) (palette : List RGB)
    (h : palette ≠ []) :
    findClosestColor target palette < palette.length ∧
    (∀ k, k < palette.length →
      Real.sqrt (colorDistanceSq target
          (palette.getD (findClosestColor target palette) ⟨0, 0, 0⟩) : ℝ) ≤
        Real.sqrt (colorDistanceSq target (palette.getD k ⟨0, 0, 0⟩) : ℝ)) ∧
    (∀ k, k < findClosestColor target palette →
      Real.sqrt (colorDistanceSq target
          (palette.getD (findClosestColor target palette) ⟨0, 0, 0⟩) : ℝ) <
        Real.sqrt (colorDistanceSq target (palette.getD k ⟨0, 0, 0⟩) : ℝ)) ∧
    findClosestColor target [target, target] = 0 := by
  obtain ⟨hlt, hmin, hstrict⟩ := findClosestColor_min_sq target palette h
  refine ⟨hlt, ?_, ?_, ?_⟩
  · intro k hk
    exact Real.sqrt_le_sqrt (by exact_mod_cast hmin k hk)
  · intro k hk
    exact Real.sqrt_lt_sqrt
      (by exact_mod_cast colorDistanceSq_nonneg target _)
      (by exact_mod_cast hstrict k hk)
  · simp [findClosestColor, findClosestColorAux]

/-- Witness for `findClosestColor_nearest` on the palette
`[(0,0,0), (3,4,0)]` with target `(3,4,0)`. -/
theorem findClosestColor_nearest_witness :
    ([⟨0, 0, 0⟩, ⟨3, 4, 0⟩] : List RGB) ≠ [] ∧
    findClosestColor ⟨3, 4, 0⟩ [⟨0, 0, 0⟩, ⟨3, 4, 0⟩] <
      ([⟨0, 0, 0⟩, ⟨3, 4, 0⟩] : List RGB).length :=
  ⟨by simp,
   (findClosestColor_nearest ⟨3, 4, 0⟩ [⟨0, 0, 0⟩, ⟨3, 4, 0⟩] (by simp)).1⟩

/-- C10: each of the four easing functions is monotonically non-decreasing
on `[0, 1]` and maps `[0, 1]` into `[0, 1]`, so the interpolated zoom
trajectory never reverses direction between frames. -/
theorem easing_monotone_unit :
    (∀ t1 t2 : ℚ, 0 ≤ t1 → t1 ≤ t2 → t2 ≤ 1 →
      linear t1 ≤ linear t2 ∧ easeOutCubic t1 ≤ easeOutCubic t2 ∧
      easeInCubic t1 ≤ easeInCubic t2 ∧ easeInOutCubic t1 ≤ easeInOutCubic t2) ∧
    (∀ t : ℚ, 0 ≤ t → t ≤ 1 →
      (0 ≤ linear t ∧ linear t ≤ 1) ∧
      (0 ≤ easeOutCubic t ∧ easeOutCubic t ≤ 1) ∧
      (0 ≤ easeInCubic t ∧ easeInCubic t ≤ 1) ∧
      (0 ≤ easeInOutCubic t ∧ easeInOutCubic t ≤ 1)) := by
  constructor
  · intro t1 t2 h0 h12 h21
    refine ⟨h12, ?_, ?_, ?_⟩
    · have hp := pow_le_pow_left₀ (show (0 : ℚ) ≤ 1 - t2 by linarith)
        (show 1 - t2 ≤ 1 - t1 by linarith) 3
      simp only [easeOutCubic]
      linarith
    · have hp := pow_le_pow_left₀ h0 h12 3
      simp only [easeInCubic]
      nlinarith [hp]
    · simp only [easeInOutCubic]
      split_ifs with ha hb hb
      · have hp := pow_le_pow_left₀ h0 h12 3
        nlinarith [hp]
      · have e1 : t1 ^ 3 ≤ (1 / 2 : ℚ) ^ 3 :=
          pow_le_pow_left₀ h0 (le_of_lt ha) 3
        have e2 : (1 - t2) ^ 3 ≤ (1 / 2 : ℚ) ^ 3 :=
          pow_le_pow_left₀ (by linarith) (by linarith [not_lt.mp hb]) 3
        nlinarith [e1, e2]
      · exact absurd hb (by linarith [not_lt.mp ha])
      · have hp := pow_le_pow_left₀ (show (0 : ℚ) ≤ 2 - 2 * t2 by linarith)
          (show 2 - 2 * t2 ≤ 2 - 2 * t1 by linarith) 3
        nlinarith [hp]
  · intro t h0 h1
    have hcube : ∀ u : ℚ, 0 ≤ u → u ≤ 1 → u ^ 3 ≤ 1 := by
      intro u hu0 hu1
      nlinarith [mul_nonneg (show (0 : ℚ) ≤ 1 - u by linarith)
        (show (0 : ℚ) ≤ u ^ 2 + u + 1 by positivity)]
    refine ⟨⟨h0, h1⟩, ⟨?_, ?_⟩, ⟨?_, ?_⟩, ?_⟩
    · have := hcube (1 - t) (by linarith) (by linarith)
      simp only [easeOutCubic]
      linarith
    · have := pow_nonneg (show (0 : ℚ) ≤ 1 - t by linarith) 3
      simp only [easeOutCubic]
      linarith
    · simp only [easeInCubic]
      positivity
    · have := hcube t h0 h1
      simp only [easeInCubic]
      nlinarith [this]
    · simp only [easeInOutCubic]
      split_ifs with ha
      · constructor
        · positivity
        · have := hcube t h0 (by linarith)
          nlinarith [pow_le_pow_left₀ h0 (le_of_lt ha) 3]
      · have hu0 : (0 : ℚ) ≤ 2 - 2 * t := by linarith
        have hu1 : 2 - 2 * t ≤ 1 := by linarith [not_lt.mp ha]
        constructor
        · have := hcube (2 - 2 * t) hu0 hu1
          nlinarith [this]
        · have := pow_nonneg hu0 3
          nlinarith [this]

/-- Witness for `easing_monotone_unit` at `t1 = 1/4`, `t2 = 3/4`. -/
theorem easing_monotone_unit_witness :
    ((0 : ℚ) ≤ 1 / 4) ∧ ((1 / 4 : ℚ) ≤ 3 / 4) ∧ ((3 / 4 : ℚ) ≤ 1) ∧
    easeInOutCubic (1 / 4) ≤ easeInOutCubic (3 / 4) :=
  ⟨by norm_num, by norm_num, by norm_num,
   (easing_monotone_unit.1 (1 / 4) (3 / 4) (by norm_num) (by norm_num)
     (by norm_num)).2.2.2⟩

end Mosaic
